import Mathlib

/-!
Verification of the vipassana meditation session core: a shallow embedding of
the phase transition policy (utils/phase.ts), the chanting selector
(utils/chanting.ts), the meditation countdown hook (useMeditationTimer), the
audio playback controller hook (useAudioPlayer) and the session orchestrator
(App.tsx), with theorems about the properties claimed for them.
-/

/-- Duration buckets for chanting audio, from types.ts: ChantingDuration. -/
inductive ChantingDuration
  | two
  | five
  | ten
  | none
  deriving DecidableEq, Repr

/-- Session mode, from types.ts: SessionMode. -/
inductive SessionMode
  | custom
  | guided
  deriving DecidableEq, Repr

/-- Guided instruction type, from types.ts: InstructionType. -/
inductive InstructionType
  | short
  | long
  deriving DecidableEq, Repr

/-- The eight session phases, from types.ts: SessionPhase. -/
inductive SessionPhase
  | idle
  | gong
  | intro
  | meditation
  | outro_chanting
  | outro
  | guided_session
  | complete
  deriving DecidableEq, Repr

/-- Session configuration, from types.ts: SessionConfig. The TypeScript fields
introFile and outroFile have type string or null, embedded as Option String. -/
structure SessionConfig where
  mode : SessionMode
  enableGong : Bool
  introFile : Option String
  outroFile : Option String
  meditationMinutes : Nat
  instructionType : InstructionType
  deriving DecidableEq, Repr

/-- JavaScript truthiness of a value of type string-or-null: null and the empty
string are falsy, every other string is truthy. The source tests such values
directly in conditions, e.g. if (config.introFile) and if (file). -/
def strTruthy : Option String → Bool
  | Option.none => false
  | Option.some s => !(s == "")

/-- Embedding of getNextPhase from utils/phase.ts: maps the current phase and
the nullable session configuration to the next phase. -/
def getNextPhase (currentPhase : SessionPhase) (config : Option SessionConfig) :
    SessionPhase :=
  match config with
  | Option.none => SessionPhase.idle
  | Option.some config =>
    match currentPhase with
    | SessionPhase.gong =>
        if config.mode = SessionMode.guided then SessionPhase.guided_session
        else if strTruthy config.introFile then SessionPhase.intro
        else SessionPhase.meditation
    | SessionPhase.intro => SessionPhase.meditation
    | SessionPhase.meditation =>
        if strTruthy config.outroFile then SessionPhase.outro_chanting
        else SessionPhase.outro
    | SessionPhase.outro_chanting => SessionPhase.outro
    | SessionPhase.outro => SessionPhase.complete
    | SessionPhase.guided_session => SessionPhase.complete
    | _ => SessionPhase.idle

/-- Embedding of getFirstPhase from utils/phase.ts. -/
def getFirstPhase (config : SessionConfig) : SessionPhase :=
  if config.enableGong then SessionPhase.gong
  else if config.mode = SessionMode.guided then SessionPhase.guided_session
  else if strTruthy config.introFile then SessionPhase.intro
  else SessionPhase.meditation

/-- One step of the phase graph induced by a fixed configuration: applying
getNextPhase with the configuration held constant. -/
def stepFn (c : SessionConfig) : SessionPhase → SessionPhase :=
  fun p => getNextPhase p (Option.some c)

/-- Claim C5: for every phase P (all eight enum values) and every configuration
C, getNextPhase is total (it is a Lean function, defined on the whole enum,
including the nullable configuration) and its result differs from P unless P is
idle or complete. -/
theorem getNextPhase_ne_self (p : SessionPhase) (c : Option SessionConfig)
    (h1 : p ≠ SessionPhase.idle) (h2 : p ≠ SessionPhase.complete) :
    getNextPhase p c ≠ p := by
  cases c with
  | none => cases p <;> simp_all [getNextPhase]
  | some cfg =>
      cases p with
      | idle => exact absurd rfl h1
      | complete => exact absurd rfl h2
      | gong =>
          simp only [getNextPhase]
          split
          · simp
          · split <;> simp
      | meditation =>
          simp only [getNextPhase]
          split <;> simp
      | intro => simp [getNextPhase]
      | outro_chanting => simp [getNextPhase]
      | outro => simp [getNextPhase]
      | guided_session => simp [getNextPhase]

/-- Witness for claim C5 at a concrete phase and configuration. -/
theorem getNextPhase_ne_self_witness :
    getNextPhase SessionPhase.gong
      (Option.some
        { mode := SessionMode.custom, enableGong := true,
          introFile := Option.none, outroFile := Option.none,
          meditationMinutes := 30, instructionType := InstructionType.short })
      ≠ SessionPhase.gong :=
  getNextPhase_ne_self SessionPhase.gong _ (by decide) (by decide)

/-- Claim C10: with a null session configuration the transition policy is
inert: getNextPhase returns idle for every phase. -/
theorem getNextPhase_null_config (p : SessionPhase) :
    getNextPhase p Option.none = SessionPhase.idle := rfl

/-- Claim C6: from getFirstPhase of any configuration, repeatedly applying
getNextPhase with that configuration reaches the complete phase after a finite
number of steps. -/
theorem firstPhase_reaches_complete (c : SessionConfig) :
    ∃ n : Nat, (stepFn c)^[n] (getFirstPhase c) = SessionPhase.complete := by
  have ext : ∀ (p q : SessionPhase), stepFn c p = q →
      (∃ n, (stepFn c)^[n] q = SessionPhase.complete) →
      ∃ n, (stepFn c)^[n] p = SessionPhase.complete := by
    rintro p q hpq ⟨n, hn⟩
    exact ⟨n + 1, by rw [Function.iterate_succ_apply, hpq]; exact hn⟩
  have h_outro : ∃ n, (stepFn c)^[n] SessionPhase.outro = SessionPhase.complete :=
    ⟨1, rfl⟩
  have h_guided : ∃ n, (stepFn c)^[n] SessionPhase.guided_session = SessionPhase.complete :=
    ⟨1, rfl⟩
  have h_oc : ∃ n, (stepFn c)^[n] SessionPhase.outro_chanting = SessionPhase.complete :=
    ext _ _ rfl h_outro
  have h_med : ∃ n, (stepFn c)^[n] SessionPhase.meditation = SessionPhase.complete := by
    cases hO : strTruthy c.outroFile with
    | false => exact ext _ _ (by simp [stepFn, getNextPhase, hO]) h_outro
    | true => exact ext _ _ (by simp [stepFn, getNextPhase, hO]) h_oc
  have h_intro : ∃ n, (stepFn c)^[n] SessionPhase.intro = SessionPhase.complete :=
    ext _ _ rfl h_med
  have h_gong : ∃ n, (stepFn c)^[n] SessionPhase.gong = SessionPhase.complete := by
    cases hM : c.mode with
    | guided => exact ext _ _ (by simp [stepFn, getNextPhase, hM]) h_guided
    | custom =>
        cases hI : strTruthy c.introFile with
        | false => exact ext _ _ (by simp [stepFn, getNextPhase, hM, hI]) h_med
        | true => exact ext _ _ (by simp [stepFn, getNextPhase, hM, hI]) h_intro
  cases hG : c.enableGong with
  | true => simpa [getFirstPhase, hG] using h_gong
  | false =>
      cases hM : c.mode with
      | guided => simpa [getFirstPhase, hG, hM] using h_guided
      | custom =>
          cases hI : strTruthy c.introFile with
          | false => simpa [getFirstPhase, hG, hM, hI] using h_med
          | true => simpa [getFirstPhase, hG, hM, hI] using h_intro

/-- A catalog entry, from types.ts: ChantingFile. -/
structure ChantingFile where
  file : String
  duration : ℚ
  deriving DecidableEq, Repr

/-- The audio catalog, from types.ts: Metadata. The chanting field maps each
non-none duration bucket to its list of entries; guided is the optional pair of
short and long instruction files. -/
structure Metadata where
  chanting2 : List ChantingFile
  chanting5 : List ChantingFile
  chanting10 : List ChantingFile
  guided : Option (String × String)
  outro : String
  gong : String
  deriving DecidableEq, Repr

/-- Bucket lookup metadata.chanting[duration]. The none bucket is unreachable
in the source (guarded before the lookup); it is mapped to the empty list. -/
def Metadata.chantingBucket (m : Metadata) : ChantingDuration → List ChantingFile
  | ChantingDuration.two => m.chanting2
  | ChantingDuration.five => m.chanting5
  | ChantingDuration.ten => m.chanting10
  | ChantingDuration.none => []

/-- Embedding of getRandomChanting from utils/chanting.ts. The random draw
Math.floor(Math.random() * chantings.length) is modelled by r % length for an
arbitrary natural r supplied by the caller. -/
def getRandomChanting (metadata : Option Metadata) (duration : ChantingDuration)
    (r : Nat) : Option String :=
  match metadata with
  | Option.none => Option.none
  | Option.some md =>
    if duration = ChantingDuration.none then Option.none
    else
      let chantings := md.chantingBucket duration
      if h : chantings.length = 0 then Option.none
      else
        Option.some
          (chantings.get ⟨r % chantings.length, Nat.mod_lt _ (Nat.pos_of_ne_zero h)⟩).file

/-- The retry loop of selectChantingWithRetry: attempt i of fuel remaining
attempts, with rs giving the random draw of each attempt. The source keeps the
first truthy result, so a null result and an empty-string result both fall
through to the next attempt. -/
def retryLoop (metadata : Option Metadata) (duration : ChantingDuration)
    (rs : Nat → Nat) : Nat → Nat → Option String
  | _, 0 => Option.none
  | i, fuel + 1 =>
    let file := getRandomChanting metadata duration (rs i)
    if strTruthy file then file
    else retryLoop metadata duration rs (i + 1) fuel

/-- Embedding of selectChantingWithRetry from utils/chanting.ts (its maxRetries
parameter defaults to 3 at the call sites below, as in the source). -/
def selectChantingWithRetry (metadata : Option Metadata)
    (duration : ChantingDuration) (rs : Nat → Nat) (maxRetries : Nat) :
    Option String :=
  retryLoop metadata duration rs 0 maxRetries

/-- Embedding of hasChantingsAvailable from utils/chanting.ts. -/
def hasChantingsAvailable (metadata : Option Metadata)
    (duration : ChantingDuration) : Bool :=
  if duration = ChantingDuration.none then true
  else
    match metadata with
    | Option.none => false
    | Option.some md => decide ((md.chantingBucket duration).length > 0)

/-- A catalog whose 2min bucket has exactly one entry, whose file name is the
empty string. -/
def mdEmptyFile : Metadata :=
  { chanting2 := [{ file := "", duration := 1 }]
    chanting5 := []
    chanting10 := []
    guided := Option.none
    outro := "outro.webm"
    gong := "gong.mp3" }

/-- Counterexample to claim C8 as stated: for the catalog mdEmptyFile and the
2min bucket, the bucket list is non-empty, the catalog is present and the
bucket is not none, yet selectChantingWithRetry returns null: getRandomChanting
returns the empty-string file name, which if (file) treats as falsy, so every
attempt is discarded. -/
theorem selectChantingWithRetry_cex :
    selectChantingWithRetry (Option.some mdEmptyFile) ChantingDuration.two
        (fun _ => 0) 3 = Option.none ∧
      ¬ (Option.some mdEmptyFile = Option.none ∨
          ChantingDuration.two = ChantingDuration.none ∨
          mdEmptyFile.chantingBucket ChantingDuration.two = []) := by
  constructor
  · rfl
  · simp [mdEmptyFile, Metadata.chantingBucket]

/-- Claim C8 (amended): restricted to catalogs whose entries in the requested
bucket all have non-empty file names (the retry loop discards an empty-string
file name as falsy, which the counterexample above exploits), the bounded retry
returns null iff the bucket is none, the catalog is absent or the bucket list
is empty; it never returns a file absent from the bucket list; and it always
equals the single pickChanting call of the first attempt, so the retry can
never change the outcome. -/
theorem selectChantingWithRetry_spec (metadata : Option Metadata)
    (duration : ChantingDuration) (rs : Nat → Nat)
    (hfiles : ∀ md, metadata = Option.some md →
      ∀ e ∈ md.chantingBucket duration, e.file ≠ "") :
    (selectChantingWithRetry metadata duration rs 3 = Option.none ↔
      (metadata = Option.none ∨ duration = ChantingDuration.none ∨
        ∀ md, metadata = Option.some md → md.chantingBucket duration = [])) ∧
    (∀ f, selectChantingWithRetry metadata duration rs 3 = Option.some f →
      ∃ md, metadata = Option.some md ∧ ∃ e ∈ md.chantingBucket duration, e.file = f) ∧
    selectChantingWithRetry metadata duration rs 3
      = getRandomChanting metadata duration (rs 0) := by
  cases metadata with
  | none =>
      refine ⟨⟨fun _ => Or.inl rfl, fun _ => rfl⟩, ?_, rfl⟩
      intro f hf
      exact absurd hf (by simp [selectChantingWithRetry, retryLoop, getRandomChanting, strTruthy])
  | some md =>
      by_cases hd : duration = ChantingDuration.none
      · subst hd
        refine ⟨⟨fun _ => Or.inr (Or.inl rfl), fun _ => rfl⟩, ?_, rfl⟩
        intro f hf
        exact absurd hf (by simp [selectChantingWithRetry, retryLoop, getRandomChanting, strTruthy])
      · by_cases hlen : (md.chantingBucket duration).length = 0
        · have hnil : md.chantingBucket duration = [] := List.length_eq_zero.mp hlen
          have hnone : ∀ r, getRandomChanting (Option.some md) duration r = Option.none := by
            intro r
            simp [getRandomChanting, hd, hlen]
          have hsel : selectChantingWithRetry (Option.some md) duration rs 3 = Option.none := by
            simp [selectChantingWithRetry, retryLoop, hnone, strTruthy]
          refine ⟨⟨fun _ => ?_, fun _ => hsel⟩, ?_, ?_⟩
          · exact Or.inr (Or.inr (fun md2 h => by cases h; exact hnil))
          · intro f hf
            rw [hsel] at hf
            exact absurd hf (by simp)
          · rw [hsel, hnone]
        · have hg : getRandomChanting (Option.some md) duration (rs 0)
              = Option.some ((md.chantingBucket duration).get
                  ⟨rs 0 % (md.chantingBucket duration).length,
                   Nat.mod_lt _ (Nat.pos_of_ne_zero hlen)⟩).file := by
            simp [getRandomChanting, hd, hlen]
          have hmem : (md.chantingBucket duration).get
              ⟨rs 0 % (md.chantingBucket duration).length,
               Nat.mod_lt _ (Nat.pos_of_ne_zero hlen)⟩ ∈ md.chantingBucket duration :=
            List.get_mem _ _ _
          have hne : ((md.chantingBucket duration).get
              ⟨rs 0 % (md.chantingBucket duration).length,
               Nat.mod_lt _ (Nat.pos_of_ne_zero hlen)⟩).file ≠ "" :=
            hfiles md rfl _ hmem
          have hcond : strTruthy (getRandomChanting (Option.some md) duration (rs 0))
              = true := by
            rw [hg]
            simp only [strTruthy, Bool.not_eq_true', beq_eq_false_iff_ne, ne_eq]
            exact hne
          have hsel : selectChantingWithRetry (Option.some md) duration rs 3
              = getRandomChanting (Option.some md) duration (rs 0) := by
            show retryLoop (Option.some md) duration rs 0 3
              = getRandomChanting (Option.some md) duration (rs 0)
            rw [show (3 : Nat) = 2 + 1 from rfl]
            rw [retryLoop]
            simp only [hcond, if_true]
          refine ⟨⟨?_, ?_⟩, ?_, hsel⟩
          · intro habs
            rw [hsel, hg] at habs
            exact absurd habs (by simp)
          · rintro (h | h | h)
            · exact absurd h (by simp)
            · exact absurd h hd
            · exact absurd (h md rfl) (fun hn => hlen (by rw [hn]; rfl))
          · intro f hf
            rw [hsel, hg, Option.some.injEq] at hf
            exact ⟨md, rfl, _, hmem, hf⟩

/-- A catalog whose 2min bucket has one entry with a normal file name. -/
def mdGood : Metadata :=
  { chanting2 := [{ file := "a.mp3", duration := 120 }]
    chanting5 := []
    chanting10 := []
    guided := Option.none
    outro := "outro.webm"
    gong := "gong.mp3" }

/-- Witness for the amended claim C8 at a concrete catalog, bucket and random
oracle. -/
theorem selectChantingWithRetry_spec_witness :
    selectChantingWithRetry (Option.some mdGood) ChantingDuration.two
        (fun _ => 0) 3
      = getRandomChanting (Option.some mdGood) ChantingDuration.two 0 :=
  (selectChantingWithRetry_spec (Option.some mdGood) ChantingDuration.two
    (fun _ => 0)
    (by
      intro md h e he
      rw [Option.some.injEq] at h
      subst h
      simp [mdGood, Metadata.chantingBucket] at he
      subst he
      decide)).2.2

/-- State of the useMeditationTimer hook together with the browser timer queue
it interacts with: timeRemaining, timerRef and isRunningRef are the hook fields;
live is the set of interval ids that have been created by setInterval and not
yet cleared; nextId numbers setInterval handles; pending counts deferred
completion dispatches scheduled by setTimeout(onComplete, 0) and not yet run;
fired counts invocations of the onComplete callback. -/
structure TimerState where
  timeRemaining : Nat
  timerRef : Option Nat
  isRunning : Bool
  live : List Nat
  nextId : Nat
  pending : Nat
  fired : Nat
  deriving DecidableEq, Repr

namespace MeditationTimer

/-- Initial hook state: no interval, nothing scheduled. -/
def init : TimerState :=
  { timeRemaining := 0, timerRef := Option.none, isRunning := false,
    live := [], nextId := 0, pending := 0, fired := 0 }

/-- Embedding of useMeditationTimer start(minutes): sets timeRemaining to
minutes * 60, marks the hook running and registers a fresh interval, storing
its id in timerRef. The source never clears a previously registered interval
here. -/
def start (minutes : Nat) (s : TimerState) : TimerState :=
  { s with
    timeRemaining := minutes * 60
    isRunning := true
    timerRef := Option.some s.nextId
    live := s.nextId :: s.live
    nextId := s.nextId + 1 }

/-- Embedding of one firing of the interval callback registered by start, for
the interval with the given id; a cleared interval no longer fires. On reaching
zero the callback clears whatever interval timerRef currently references and
schedules the completion dispatch via setTimeout(onComplete, 0). -/
def tick (id : Nat) (s : TimerState) : TimerState :=
  if s.live.contains id then
    if s.timeRemaining ≤ 1 then
      { s with
        timeRemaining := 0
        timerRef := Option.none
        isRunning := false
        live := match s.timerRef with
          | Option.some j => s.live.erase j
          | Option.none => s.live
        pending := s.pending + 1 }
    else { s with timeRemaining := s.timeRemaining - 1 }
  else s

/-- Embedding of useMeditationTimer stop(): clears the interval referenced by
timerRef if any, marks the hook not running and resets timeRemaining. It holds
no reference to the setTimeout handle, so pending is untouched. -/
def stop (s : TimerState) : TimerState :=
  { s with
    timeRemaining := 0
    isRunning := false
    timerRef := Option.none
    live := match s.timerRef with
      | Option.some j => s.live.erase j
      | Option.none => s.live }

/-- The browser runs one scheduled deferred completion dispatch, if any is
pending: the onComplete callback is invoked. -/
def runTimeout (s : TimerState) : TimerState :=
  match s.pending with
  | 0 => s
  | n + 1 => { s with pending := n, fired := s.fired + 1 }

end MeditationTimer

/-- Counterexample to claim C2 as stated: calling start while a countdown is
already running does not cancel the previous run. After start(1) followed by
start(1), both interval ids 0 and 1 are live: two concurrent tickers exist. -/
theorem timer_start_two_tickers_cex :
    (MeditationTimer.start 1 (MeditationTimer.start 1 MeditationTimer.init)).live
        = [1, 0] ∧
      ¬ ((MeditationTimer.start 1 (MeditationTimer.start 1 MeditationTimer.init)).live.length
          ≤ 1) := by
  decide

/-- Claim C2 (amended): calling start while a countdown is already running does
not cancel the previous run; it registers a fresh interval and overwrites
timerRef with its id, so every previously live ticker stays live and the live
ticker count grows by one. -/
theorem timer_start_no_cancel (s : TimerState) (m : Nat) (i : Nat)
    (hi : i ∈ s.live) :
    i ∈ (MeditationTimer.start m s).live ∧
      (MeditationTimer.start m s).live.length = s.live.length + 1 ∧
      (MeditationTimer.start m s).timerRef = Option.some s.nextId := by
  refine ⟨?_, rfl, rfl⟩
  exact List.mem_cons_of_mem _ hi

/-- Witness for the amended claim C2: after start(1), interval id 0 is live,
and a second start(1) keeps it live. -/
theorem timer_start_no_cancel_witness :
    0 ∈ (MeditationTimer.start 1 (MeditationTimer.start 1 MeditationTimer.init)).live ∧
      (MeditationTimer.start 1 (MeditationTimer.start 1 MeditationTimer.init)).live.length
        = (MeditationTimer.start 1 MeditationTimer.init).live.length + 1 ∧
      (MeditationTimer.start 1 (MeditationTimer.start 1 MeditationTimer.init)).timerRef
        = Option.some (MeditationTimer.start 1 MeditationTimer.init).nextId :=
  timer_start_no_cancel (MeditationTimer.start 1 MeditationTimer.init) 1 0 (by decide)

/-- The state reached by start(1), sixty firings of its interval (counting down
from 60 to the final tick, which schedules the deferred completion dispatch),
and then stop(). -/
def timerCexMid : TimerState :=
  MeditationTimer.stop
    ((MeditationTimer.tick 0)^[60] (MeditationTimer.start 1 MeditationTimer.init))

set_option maxRecDepth 8000 in
/-- Counterexample to claim C3 as stated: in the run start(1), sixty ticks,
stop(), the final tick has scheduled the deferred completion dispatch; stop()
does not cancel it (pending is still 1 after stop() returns), and when the
browser then runs the scheduled timeout the completion callback is invoked
after stop() has returned. -/
theorem timer_stop_stale_completion_cex :
    timerCexMid.pending = 1 ∧
      (MeditationTimer.runTimeout timerCexMid).fired = 1 := by
  decide

/-- Claim C3 (amended): stop() clears the referenced interval and, when called
immediately after start(m) before any tick, leaves a quiescent state: no live
ticker, no pending deferred dispatch, and the completion callback never fires
under any further tick or timeout processing. However stop() does not cancel a
deferred completion dispatch that the final tick has already scheduled: pending
dispatches survive stop() unchanged (and still invoke the callback when run, as
the counterexample shows). -/
theorem timer_stop_suppresses (m : Nat) (s : TimerState) (id : Nat)
    (hlive : s.live = []) (hpending : s.pending = 0) :
    (MeditationTimer.stop (MeditationTimer.start m MeditationTimer.init)).live = [] ∧
      (MeditationTimer.stop (MeditationTimer.start m MeditationTimer.init)).pending = 0 ∧
      (MeditationTimer.stop (MeditationTimer.start m MeditationTimer.init)).fired = 0 ∧
      (MeditationTimer.stop s).pending = s.pending ∧
      (MeditationTimer.stop s).fired = s.fired ∧
      MeditationTimer.tick id s = s ∧
      MeditationTimer.runTimeout s = s := by
  refine ⟨rfl, rfl, rfl, rfl, rfl, ?_, ?_⟩
  · simp [MeditationTimer.tick, hlive]
  · simp [MeditationTimer.runTimeout, hpending]

/-- Witness for the amended claim C3 at the concrete quiescent state reached by
start(2) followed by stop(). -/
theorem timer_stop_suppresses_witness :
    (MeditationTimer.stop (MeditationTimer.start 2 MeditationTimer.init)).live = [] ∧
      (MeditationTimer.stop (MeditationTimer.start 2 MeditationTimer.init)).pending = 0 ∧
      (MeditationTimer.stop (MeditationTimer.start 2 MeditationTimer.init)).fired = 0 ∧
      (MeditationTimer.stop (MeditationTimer.stop (MeditationTimer.start 2 MeditationTimer.init))).pending
        = (MeditationTimer.stop (MeditationTimer.start 2 MeditationTimer.init)).pending ∧
      (MeditationTimer.stop (MeditationTimer.stop (MeditationTimer.start 2 MeditationTimer.init))).fired
        = (MeditationTimer.stop (MeditationTimer.start 2 MeditationTimer.init)).fired ∧
      MeditationTimer.tick 0 (MeditationTimer.stop (MeditationTimer.start 2 MeditationTimer.init))
        = MeditationTimer.stop (MeditationTimer.start 2 MeditationTimer.init) ∧
      MeditationTimer.runTimeout (MeditationTimer.stop (MeditationTimer.start 2 MeditationTimer.init))
        = MeditationTimer.stop (MeditationTimer.start 2 MeditationTimer.init) :=
  timer_stop_suppresses 2
    (MeditationTimer.stop (MeditationTimer.start 2 MeditationTimer.init)) 0
    (by decide) (by decide)

/-- One HTMLAudioElement as observed by the useAudioPlayer hook: its identity,
source, whether it is paused, whether the four event handlers
(onloadedmetadata, ontimeupdate, onended, onerror) are still attached, and its
volume. -/
structure AudioHandle where
  id : Nat
  src : String
  paused : Bool
  attached : Bool
  volume : ℚ
  deriving DecidableEq, Repr

/-- State of the useAudioPlayer hook (useAudioPlayer.ts) together with every
audio element constructed so far: audioRef and fadeIntervalRef are the hook
refs, progress is the published AudioProgress pair, handles records each
constructed element, nextId and nextFadeId number elements and fade
intervals. -/
structure PlayerState where
  handles : List AudioHandle
  audioRef : Option Nat
  fadeIntervalRef : Option Nat
  nextId : Nat
  nextFadeId : Nat
  progress : ℚ × ℚ
  deriving DecidableEq, Repr

namespace AudioPlayer

/-- Initial hook state: no element, no fade interval, zero progress. -/
def init : PlayerState :=
  { handles := [], audioRef := Option.none, fadeIntervalRef := Option.none,
    nextId := 0, nextFadeId := 0, progress := (0, 0) }

/-- Embedding of useAudioPlayer stop(): clears the fade interval if any, then
pauses the element referenced by audioRef, removes its four handlers and
releases the ref, and finally resets progress to zeroes. -/
def stop (s : PlayerState) : PlayerState :=
  let s1 := { s with fadeIntervalRef := Option.none }
  let s2 :=
    match s1.audioRef with
    | Option.some i =>
        { s1 with
          handles := s1.handles.map fun (h : AudioHandle) =>
            if h.id = i then { h with paused := true, attached := false } else h
          audioRef := Option.none }
    | Option.none => s1
  { s2 with progress := (0, 0) }

/-- The body of useAudioPlayer play(src, options) after its opening stop()
call: constructs a new element for src with handlers attached, stores it in
audioRef, sets its volume to 0 and registers a fade interval when
fadeInSeconds is positive. -/
def playAfterStop (src : String) (fadeInSeconds : ℚ) (s : PlayerState) :
    PlayerState :=
  { s with
    handles := s.handles ++
      [{ id := s.nextId, src := src, paused := false, attached := true,
         volume := if 0 < fadeInSeconds then 0 else 1 }]
    audioRef := Option.some s.nextId
    nextId := s.nextId + 1
    fadeIntervalRef :=
      if 0 < fadeInSeconds then Option.some s.nextFadeId else s.fadeIntervalRef
    nextFadeId :=
      if 0 < fadeInSeconds then s.nextFadeId + 1 else s.nextFadeId }

/-- Embedding of useAudioPlayer play(src, options): the promise executor first
calls stop() synchronously and only then constructs the new element. -/
def play (src : String) (fadeInSeconds : ℚ) (s : PlayerState) : PlayerState :=
  playAfterStop src fadeInSeconds (stop s)

/-- The events that drive the hook state: the two exposed calls and the media
callbacks of the current element (progress tick, metadata load, natural
end). -/
inductive PlayerEvent where
  | play (src : String) (fadeInSeconds : ℚ)
  | stop
  | loadedMetadata (d : ℚ)
  | timeUpdate (t d : ℚ)
  | ended
  deriving Repr

/-- One step of the hook: apply an event to the state. Media callbacks only
fire while an element is held. -/
def step (e : PlayerEvent) (s : PlayerState) : PlayerState :=
  match e with
  | PlayerEvent.play src f => play src f s
  | PlayerEvent.stop => stop s
  | PlayerEvent.loadedMetadata d =>
      if s.audioRef.isSome then { s with progress := (s.progress.1, d) } else s
  | PlayerEvent.timeUpdate t d =>
      if s.audioRef.isSome then { s with progress := (t, d) } else s
  | PlayerEvent.ended =>
      if s.audioRef.isSome then { s with progress := (0, 0) } else s

/-- Run a sequence of events from the initial state. -/
def run (es : List PlayerEvent) : PlayerState :=
  es.foldl (fun s e => step e s) init

/-- The live audio handles of a state: elements whose handlers are still
attached (a torn-down element is paused and handler-free and can no longer be
observed). -/
def liveHandles (s : PlayerState) : List AudioHandle :=
  s.handles.filter fun (h : AudioHandle) => h.attached

/-- Invariant of the hook: only the element currently referenced by audioRef
can still have handlers attached, and at most one live element exists. -/
def PlayerInv (s : PlayerState) : Prop :=
  (∀ h ∈ s.handles, h.attached = true → s.audioRef = Option.some h.id) ∧
    (liveHandles s).length ≤ 1

end AudioPlayer

/-- After stop() the hook holds no element reference. -/
theorem player_stop_audioRef (s : PlayerState) :
    (AudioPlayer.stop s).audioRef = Option.none := by
  cases har : s.audioRef <;> simp [AudioPlayer.stop, har]

/-- After stop() every constructed element is torn down: no handle keeps its
handlers attached. -/
theorem player_liveHandles_stop (s : PlayerState)
    (hInv : ∀ h ∈ s.handles, h.attached = true → s.audioRef = Option.some h.id) :
    AudioPlayer.liveHandles (AudioPlayer.stop s) = [] := by
  cases har : s.audioRef with
  | none =>
      simp only [AudioPlayer.liveHandles, AudioPlayer.stop, har]
      rw [List.filter_eq_nil_iff]
      intro h hm ha
      have := hInv h hm (by simpa using ha)
      rw [har] at this
      exact Option.noConfusion this
  | some i =>
      simp only [AudioPlayer.liveHandles, AudioPlayer.stop, har]
      rw [List.filter_eq_nil_iff]
      intro h hm ha
      rcases List.mem_map.mp hm with ⟨h0, hm0, rfl⟩
      by_cases hid : h0.id = i
      · simp [hid] at ha
      · simp only [if_neg hid] at ha
        have := hInv h0 hm0 (by simpa using ha)
        rw [har] at this
        exact hid (by injection this with h2; exact h2.symm)

/-- stop() preserves the hook invariant. -/
theorem playerInv_stop (s : PlayerState) (hInv : AudioPlayer.PlayerInv s) :
    AudioPlayer.PlayerInv (AudioPlayer.stop s) := by
  constructor
  · intro h hm ha
    exfalso
    have hmem : h ∈ AudioPlayer.liveHandles (AudioPlayer.stop s) :=
      List.mem_filter.mpr ⟨hm, by simpa using ha⟩
    rw [player_liveHandles_stop s hInv.1] at hmem
    exact absurd hmem (List.not_mem_nil h)
  · rw [player_liveHandles_stop s hInv.1]
    simp

/-- After play() the only live element is the one just constructed. -/
theorem player_liveHandles_play (src : String) (f : ℚ) (s : PlayerState)
    (hdead : AudioPlayer.liveHandles s = []) :
    AudioPlayer.liveHandles (AudioPlayer.playAfterStop src f s)
      = [{ id := s.nextId, src := src, paused := false, attached := true,
           volume := if 0 < f then 0 else 1 }] := by
  have hnil : s.handles.filter (fun (h : AudioHandle) => h.attached) = [] := hdead
  simp [AudioPlayer.playAfterStop, AudioPlayer.liveHandles, List.filter_append, hnil]

/-- play() preserves the hook invariant. -/
theorem playerInv_play (src : String) (f : ℚ) (s : PlayerState)
    (hInv : AudioPlayer.PlayerInv s) :
    AudioPlayer.PlayerInv (AudioPlayer.play src f s) := by
  have hdead := player_liveHandles_stop s hInv.1
  constructor
  · intro h hm ha
    simp only [AudioPlayer.play, AudioPlayer.playAfterStop, List.mem_append,
      List.mem_singleton] at hm
    rcases hm with hm | rfl
    · exfalso
      have hmem : h ∈ AudioPlayer.liveHandles (AudioPlayer.stop s) :=
        List.mem_filter.mpr ⟨hm, by simpa using ha⟩
      rw [hdead] at hmem
      exact absurd hmem (List.not_mem_nil h)
    · rfl
  · rw [AudioPlayer.play, player_liveHandles_play src f _ hdead]
    simp

/-- Every event of the hook preserves the invariant. -/
theorem playerInv_step (e : AudioPlayer.PlayerEvent) (s : PlayerState)
    (hInv : AudioPlayer.PlayerInv s) :
    AudioPlayer.PlayerInv (AudioPlayer.step e s) := by
  cases e with
  | play src f => exact playerInv_play src f s hInv
  | stop => exact playerInv_stop s hInv
  | loadedMetadata d =>
      simp only [AudioPlayer.step]
      split
      · exact hInv
      · exact hInv
  | timeUpdate t d =>
      simp only [AudioPlayer.step]
      split
      · exact hInv
      · exact hInv
  | ended =>
      simp only [AudioPlayer.step]
      split
      · exact hInv
      · exact hInv

/-- Every state reachable from the initial hook state satisfies the
invariant. -/
theorem playerInv_run (es : List AudioPlayer.PlayerEvent) :
    AudioPlayer.PlayerInv (AudioPlayer.run es) := by
  have h0 : AudioPlayer.PlayerInv AudioPlayer.init := by
    constructor
    · intro h hm
      simp [AudioPlayer.init] at hm
    · simp [AudioPlayer.liveHandles, AudioPlayer.init]
  have H : ∀ (l : List AudioPlayer.PlayerEvent) (s : PlayerState),
      AudioPlayer.PlayerInv s →
      AudioPlayer.PlayerInv (l.foldl (fun s e => AudioPlayer.step e s) s) := by
    intro l
    induction l with
    | nil => intro s h; exact h
    | cons e t ih => intro s h; exact ih _ (playerInv_step e s h)
  exact H es AudioPlayer.init h0

/-- Claim C7: in every reachable hook state, calling play synchronously tears
the earlier playback down before the new element is created: the intermediate
state after the opening stop() has no live handle, no held reference, and
reset progress; play is exactly that stop() followed by constructing the new
element; and at most one live audio handle is observable at any time. -/
theorem audioPlayer_single_handle (es : List AudioPlayer.PlayerEvent)
    (src : String) (f : ℚ) :
    AudioPlayer.liveHandles (AudioPlayer.stop (AudioPlayer.run es)) = [] ∧
      (AudioPlayer.stop (AudioPlayer.run es)).audioRef = Option.none ∧
      (AudioPlayer.stop (AudioPlayer.run es)).progress = (0, 0) ∧
      AudioPlayer.play src f (AudioPlayer.run es)
        = AudioPlayer.playAfterStop src f (AudioPlayer.stop (AudioPlayer.run es)) ∧
      (AudioPlayer.liveHandles (AudioPlayer.run es)).length ≤ 1 :=
  ⟨player_liveHandles_stop _ (playerInv_run es).1,
   player_stop_audioRef _,
   rfl,
   rfl,
   (playerInv_run es).2⟩

/-- State of the fade-in ramp interval that play registers when
fadeInSeconds > 0: the tick counter, the output volume last written, and
whether the 100 ms interval is still registered. -/
structure FadeState where
  currentStep : Nat
  volume : ℚ
  live : Bool
  deriving DecidableEq, Repr

/-- Ramp state just after play set audio.volume = 0 and registered the
interval. -/
def fadeInit : FadeState := { currentStep := 0, volume := 0, live := true }

/-- One firing of the fade interval callback for fadeInSeconds = s: increments
currentStep, writes min(1, currentStep * volumeStep) with
steps = fadeInSeconds * 10 and volumeStep = 1 / steps, and clears the interval
once currentStep reaches steps. A cleared interval no longer fires. -/
def fadeTick (s : ℚ) (st : FadeState) : FadeState :=
  if st.live then
    { currentStep := st.currentStep + 1
      volume := min 1 ((st.currentStep + 1 : ℚ) * (1 / (s * 10)))
      live := !(decide ((s * 10) ≤ (st.currentStep + 1 : ℚ))) }
  else st

/-- The ramp state after k firings of the 100 ms interval. -/
def fadeRun (s : ℚ) (k : Nat) : FadeState := (fadeTick s)^[k] fadeInit

/-- Closed form of the fade ramp: after k ticks the counter is k capped at
ceil(10 s), the volume is the capped linear ramp, and the interval is live
exactly while fewer than ceil(10 s) ticks have fired. -/
theorem fadeRun_char (s : ℚ) (hs : 0 < s) (k : Nat) :
    fadeRun s k =
      { currentStep := min k ⌈s * 10⌉₊
        volume := min 1 (((min k ⌈s * 10⌉₊ : Nat) : ℚ) * (1 / (s * 10)))
        live := decide (k < ⌈s * 10⌉₊) } := by
  have hpos : (0 : ℚ) < s * 10 := by positivity
  have hc : 0 < ⌈s * 10⌉₊ := Nat.ceil_pos.mpr hpos
  induction k with
  | zero =>
      have h1 : min 0 ⌈s * 10⌉₊ = 0 := Nat.zero_min _
      have h2 : decide (0 < ⌈s * 10⌉₊) = true := decide_eq_true hc
      rw [fadeRun, Function.iterate_zero_apply, fadeInit]
      rw [FadeState.mk.injEq]
      refine ⟨h1.symm, ?_, h2.symm⟩
      rw [h1]
      norm_num
  | succ k ih =>
      rw [fadeRun, Function.iterate_succ_apply']
      rw [show (fadeTick s)^[k] fadeInit = fadeRun s k from rfl, ih]
      by_cases hlt : k < ⌈s * 10⌉₊
      · have hl : decide (k < ⌈s * 10⌉₊) = true := decide_eq_true hlt
        have hmin : min k ⌈s * 10⌉₊ = k := min_eq_left (le_of_lt hlt)
        have hmin2 : min (k + 1) ⌈s * 10⌉₊ = k + 1 := min_eq_left hlt
        rw [fadeTick]
        simp only [hl, if_true, hmin, hmin2]
        rw [FadeState.mk.injEq]
        refine ⟨rfl, by push_cast; ring_nf, ?_⟩
        have hiff : (k + 1 < ⌈s * 10⌉₊) ↔ ((k + 1 : ℚ) < s * 10) := by
          rw [Nat.lt_ceil]
          push_cast
          exact Iff.rfl
        have hiff2 : ((k + 1 : ℚ) < s * 10) ↔ ¬ ((s * 10) ≤ ((k : ℚ) + 1)) := by
          rw [not_le]
        rw [show (decide (k + 1 < ⌈s * 10⌉₊))
              = decide (¬ ((s * 10) ≤ ((k : ℚ) + 1)))
            from decide_eq_decide.mpr (hiff.trans hiff2)]
        simp only [decide_not]
      · have hl : decide (k < ⌈s * 10⌉₊) = false := decide_eq_false hlt
        have hge : ⌈s * 10⌉₊ ≤ k := le_of_not_lt hlt
        have hmin : min k ⌈s * 10⌉₊ = ⌈s * 10⌉₊ := min_eq_right hge
        have hmin2 : min (k + 1) ⌈s * 10⌉₊ = ⌈s * 10⌉₊ :=
          min_eq_right (le_trans hge (Nat.le_succ k))
        have hl2 : decide (k + 1 < ⌈s * 10⌉₊) = false :=
          decide_eq_false (by omega)
        rw [fadeTick]
        simp only [hl, Bool.false_eq_true, if_false, hmin, hmin2, hl2]

/-- Claim C9: for every fadeInSeconds s > 0, the ramp starts at volume 0, after
k ticks of the fixed 100 ms interval the volume equals min(1, k / (10 s)), the
volume is exactly 1 once the s-second ramp has elapsed (k at or past 10 s) and
strictly below 1 before that, and the interval is cleared exactly at the end of
the ramp, after which further firings change nothing. -/
theorem fade_ramp (s : ℚ) (hs : 0 < s) (k : Nat) :
    (fadeRun s 0).volume = 0 ∧
      (fadeRun s k).volume = min 1 ((k : ℚ) / (s * 10)) ∧
      ((s * 10) ≤ (k : ℚ) → (fadeRun s k).volume = 1 ∧
        fadeTick s (fadeRun s k) = fadeRun s k) ∧
      ((k : ℚ) < s * 10 → (fadeRun s k).volume < 1) ∧
      ((fadeRun s k).live = true ↔ (k : ℚ) < s * 10) := by
  have hpos : (0 : ℚ) < s * 10 := by positivity
  have hchar := fadeRun_char s hs k
  have hvol : (fadeRun s k).volume = min 1 ((k : ℚ) / (s * 10)) := by
    rw [hchar]
    rcases le_or_lt k ⌈s * 10⌉₊ with hk | hk
    · rw [min_eq_left hk, mul_one_div]
    · rw [min_eq_right (le_of_lt hk)]
      have hck : (s * 10) ≤ (⌈s * 10⌉₊ : ℚ) := Nat.le_ceil _
      have h1 : (1 : ℚ) ≤ (⌈s * 10⌉₊ : ℚ) * (1 / (s * 10)) := by
        rw [mul_one_div, le_div_iff hpos, one_mul]
        exact hck
      have h2 : (1 : ℚ) ≤ (k : ℚ) / (s * 10) := by
        rw [le_div_iff hpos, one_mul]
        exact le_trans hck (by exact_mod_cast le_of_lt hk)
      rw [min_eq_left h1, min_eq_left h2]
  have hlive : ((fadeRun s k).live = true ↔ (k : ℚ) < s * 10) := by
    rw [hchar]
    simp only [decide_eq_true_eq]
    exact Nat.lt_ceil
  refine ⟨rfl, hvol, ?_, ?_, hlive⟩
  · intro hk
    have hk2 : ¬ ((k : ℚ) < s * 10) := not_lt.mpr hk
    constructor
    · rw [hvol, min_eq_left (by rw [le_div_iff hpos, one_mul]; exact hk)]
    · have hdead : (fadeRun s k).live = false := by
        rcases Bool.eq_false_or_eq_true (fadeRun s k).live with h | h
        · exact absurd (hlive.mp h) hk2
        · exact h
      simp [fadeTick, hdead]
  · intro hk
    have hlt1 : (k : ℚ) / (s * 10) < 1 := by
      rw [div_lt_one hpos]
      exact hk
    rw [hvol, min_eq_right (le_of_lt hlt1)]
    exact hlt1

/-- Witness for claim C9 at fadeInSeconds 2 after 5 ticks. -/
theorem fade_ramp_witness :
    (fadeRun 2 5).volume = min 1 (((5 : Nat) : ℚ) / (2 * 10)) :=
  (fade_ramp 2 (by norm_num) 5).2.1

/-- The session phases of the orchestrator in App.tsx; this enum has no
guided_session value. -/
inductive AppPhase
  | idle
  | gong
  | intro
  | meditation
  | outro_chanting
  | outro
  | complete
  deriving DecidableEq, Repr

/-- The orchestrator state of App.tsx relevant to phase transitions: the
authoritative current phase (phase state, mirrored by phaseRef for async
callbacks), the loaded catalog, the user settings, the countdown state and the
currently selected chanting file. -/
structure AppState where
  phase : AppPhase
  metadata : Option Metadata
  enableGong : Bool
  introDuration : ChantingDuration
  outroDuration : ChantingDuration
  meditationDuration : Nat
  timeRemaining : Nat
  currentChanting : Option String
  timerRunning : Bool
  deriving Repr

namespace App

/-- Embedding of startMeditationTimer in App.tsx: sets timeRemaining to
meditationDuration * 60 and registers the countdown interval. -/
def startMeditationTimer (s : AppState) : AppState :=
  { s with timeRemaining := s.meditationDuration * 60, timerRunning := true }

/-- Embedding of the continuation that handlePhaseTransition runs when the
audio of forPhase ends naturally: it compares the authoritative current phase
(phaseRef.current) against the phase literal of the branch that awaited the
playback and advances only on a match. The random draw of the intro chant pick
is r. -/
def onAudioEnded (forPhase : AppPhase) (r : Nat) (s : AppState) : AppState :=
  match forPhase with
  | AppPhase.gong =>
      if s.phase = AppPhase.gong then
        if s.introDuration ≠ ChantingDuration.none then
          { s with
            currentChanting := getRandomChanting s.metadata s.introDuration r
            phase := AppPhase.intro }
        else startMeditationTimer { s with phase := AppPhase.meditation }
      else s
  | AppPhase.intro =>
      if s.phase = AppPhase.intro then
        startMeditationTimer { s with phase := AppPhase.meditation }
      else s
  | AppPhase.outro_chanting =>
      if s.phase = AppPhase.outro_chanting then { s with phase := AppPhase.outro }
      else s
  | AppPhase.outro =>
      if s.phase = AppPhase.outro then { s with phase := AppPhase.complete }
      else s
  | _ => s

/-- Embedding of the watcher effect of App.tsx that fires when the meditation
countdown reaches zero: it advances only while the current phase is still
meditation. The random draw of the outro chant pick is r. -/
def onTimerZero (r : Nat) (s : AppState) : AppState :=
  if s.phase = AppPhase.meditation ∧ s.timeRemaining = 0 then
    if s.outroDuration ≠ ChantingDuration.none then
      { s with
        currentChanting := getRandomChanting s.metadata s.outroDuration r
        phase := AppPhase.outro_chanting }
    else { s with phase := AppPhase.outro }
  else s

/-- Embedding of the catch branch of handlePhaseTransition in App.tsx: on a
playback failure it logs and then advances according to the authoritative
current phase (phaseRef.current), mirroring the success continuations. -/
def onPlaybackError (r : Nat) (s : AppState) : AppState :=
  match s.phase with
  | AppPhase.gong =>
      if s.introDuration ≠ ChantingDuration.none then
        { s with
          currentChanting := getRandomChanting s.metadata s.introDuration r
          phase := AppPhase.intro }
      else startMeditationTimer { s with phase := AppPhase.meditation }
  | AppPhase.intro => startMeditationTimer { s with phase := AppPhase.meditation }
  | AppPhase.outro_chanting => { s with phase := AppPhase.outro }
  | AppPhase.outro => { s with phase := AppPhase.complete }
  | _ => s

end App

/-- Modelled from the spec: the guided-mode session orchestrator is not under
src (only its helpers getNextPhase, useMeditationTimer, useAudioPlayer and the
presentation components are); per the spec, on natural completion of the
guided_session audio phase the orchestrator advances via nextPhase. -/
def specGuidedOnComplete (c : Option SessionConfig) : SessionPhase :=
  getNextPhase SessionPhase.guided_session c

/-- Modelled from the spec: per the spec, on playback failure of the
guided_session audio phase the orchestrator logs and advances via nextPhase
anyway, exactly as on natural completion. -/
def specGuidedOnError (c : Option SessionConfig) : SessionPhase :=
  getNextPhase SessionPhase.guided_session c

/-- Claim C1: a stale completion does not change the phase again. Every
asynchronous completion handler compares the authoritative current phase
against the phase it completed for and discards the event on mismatch: if the
current phase is no longer the phase whose audio ended, onAudioEnded leaves
the state unchanged, and if the current phase is no longer meditation, the
countdown completion watcher leaves the state unchanged. -/
theorem stale_completion_guard (s : AppState) (p : AppPhase) (r : Nat) :
    (s.phase ≠ p → App.onAudioEnded p r s = s) ∧
      (s.phase ≠ AppPhase.meditation → App.onTimerZero r s = s) := by
  constructor
  · intro h
    cases p <;> simp [App.onAudioEnded, h]
  · intro h
    simp [App.onTimerZero, h]

/-- A concrete orchestrator state sitting in the idle phase. -/
def appStateIdle : AppState :=
  { phase := AppPhase.idle, metadata := Option.none, enableGong := false,
    introDuration := ChantingDuration.none,
    outroDuration := ChantingDuration.none,
    meditationDuration := 30, timeRemaining := 0,
    currentChanting := Option.none, timerRunning := false }

/-- Witness for claim C1: a gong completion and a countdown completion arriving
in the idle phase are both discarded. -/
theorem stale_completion_guard_witness :
    App.onAudioEnded AppPhase.gong 0 appStateIdle = appStateIdle ∧
      App.onTimerZero 0 appStateIdle = appStateIdle :=
  ⟨(stale_completion_guard appStateIdle AppPhase.gong 0).1 (by decide),
   (stale_completion_guard appStateIdle AppPhase.gong 0).2 (by decide)⟩

/-- Claim C4: playback failure never strands the session. For each audio phase
of the App.tsx orchestrator (gong, intro, outro_chanting, outro), the catch
branch advances to exactly the phase that natural completion of that phase
would have produced, and never back to idle; and in the spec-modelled
guided-mode orchestrator, failure of the guided_session phase advances via
nextPhase exactly as natural completion does. -/
theorem playback_failure_advances (s : AppState) (r r2 : Nat) :
    ((s.phase = AppPhase.gong ∨ s.phase = AppPhase.intro ∨
        s.phase = AppPhase.outro_chanting ∨ s.phase = AppPhase.outro) →
      (App.onPlaybackError r s).phase = (App.onAudioEnded s.phase r2 s).phase ∧
        (App.onPlaybackError r s).phase ≠ AppPhase.idle) ∧
      (∀ c : Option SessionConfig, specGuidedOnError c = specGuidedOnComplete c) := by
  constructor
  · intro h
    rcases h with h | h | h | h
    · by_cases hi : s.introDuration ≠ ChantingDuration.none
      · constructor
        · simp [App.onPlaybackError, App.onAudioEnded, h, hi]
        · simp [App.onPlaybackError, h, hi]
      · constructor
        · simp [App.onPlaybackError, App.onAudioEnded, h, hi,
            App.startMeditationTimer]
        · simp [App.onPlaybackError, h, hi, App.startMeditationTimer]
    · constructor
      · simp [App.onPlaybackError, App.onAudioEnded, h, App.startMeditationTimer]
      · simp [App.onPlaybackError, h, App.startMeditationTimer]
    · constructor
      · simp [App.onPlaybackError, App.onAudioEnded, h]
      · simp [App.onPlaybackError, h]
    · constructor
      · simp [App.onPlaybackError, App.onAudioEnded, h]
      · simp [App.onPlaybackError, h]
  · intro c
    rfl

/-- A concrete orchestrator state sitting in the gong phase. -/
def appStateGong : AppState :=
  { phase := AppPhase.gong, metadata := Option.none, enableGong := true,
    introDuration := ChantingDuration.none,
    outroDuration := ChantingDuration.none,
    meditationDuration := 30, timeRemaining := 0,
    currentChanting := Option.none, timerRunning := false }

/-- Witness for claim C4: failed gong playback advances exactly as a finished
gong playback would. -/
theorem playback_failure_advances_witness :
    (App.onPlaybackError 0 appStateGong).phase
        = (App.onAudioEnded appStateGong.phase 1 appStateGong).phase ∧
      (App.onPlaybackError 0 appStateGong).phase ≠ AppPhase.idle :=
  (playback_failure_advances appStateGong 0 1).1 (Or.inl rfl)
